import Mathlib

/-!
# Verification of the local-cache / remote-sync reconciliation core

Shallow embedding of the reconciliation layer, earnings calculator, remote-row
mapping, local-cache load and date filtering of `src/components/Home.tsx`.

Modelling conventions:
* JavaScript numbers are modelled as rationals (`ℚ`); a possibly-`NaN` number
  is `JSNum := Option ℚ` with `none` standing for `NaN` (e.g. `Number("x")`).
* External effects are parameters: the result of a remote call is an
  `Except String _` value, the fresh identifier produced by `uuidv4()` is a
  `String` argument, and the device clock is a `DeviceClock` record.
* `Alert.alert` only displays a notice and never changes the record state, so
  alerts are not part of the state model.
* JavaScript `Array.prototype.sort` is a stable sort consistent with the
  comparator; since the comparator used by `sortByDateDesc` induces a total
  preorder on `dateISO`, the result is the unique stable sorted permutation,
  modelled by `List.insertionSort` (which is stable).
-/

namespace Redoo

/-- A JavaScript number: `some q` is an ordinary (finite) number, `none` is
`NaN` (what `Number(x)` returns on non-numeric input). -/
abbrev JSNum := Option ℚ

/-- `Number(x) || 0`: `NaN` (falsy) is coerced to `0`; `0` itself is falsy but
`0 || 0 = 0`, so the value is unchanged on every ordinary number. -/
def numOrZero : JSNum → ℚ
  | none => 0
  | some q => q

/-- JavaScript truthiness of a number: `NaN`, `0` and `-0` are falsy. -/
def jsTruthy : JSNum → Bool
  | none => false
  | some q => decide (q ≠ 0)

/-- The JavaScript comparison `x > 0` on a number (`NaN > 0` is `false`). -/
def jsGtZero : JSNum → Bool
  | none => false
  | some q => decide (0 < q)

/-- Delivery status (`'pending' | 'completed' | 'aborted' | 'cancelled'`). -/
inductive Status where
  | pending
  | completed
  | aborted
  | cancelled
deriving DecidableEq

/-- The in-memory `Delivery` record (`export type Delivery`).  Numeric fields
are `JSNum` because at runtime they are whatever JavaScript number (possibly
`NaN`) was stored in them. -/
structure Delivery where
  id : String
  dateISO : String
  carMake : String
  carModel : String
  reg : String
  pickup : String
  dropoff : String
  distanceKm : JSNum
  ratePerKm : JSNum
  fixedFee : JSNum
  transportExpense : JSNum
  earnings : JSNum
  status : Status
  notes : Option String
deriving DecidableEq

/-- `Draft = Omit<Delivery, 'id'> & { id?: string }`. -/
structure Draft where
  id : Option String
  dateISO : String
  carMake : String
  carModel : String
  reg : String
  pickup : String
  dropoff : String
  distanceKm : JSNum
  ratePerKm : JSNum
  fixedFee : JSNum
  transportExpense : JSNum
  earnings : JSNum
  status : Status
  notes : Option String
deriving DecidableEq

/-- The wire row shape `DeliveryRow`: all payload fields nullable.  A numeric
column is `Option JSNum`: `none` is SQL `null`, `some v` is a number or a
numeric-text value whose `Number(·)` coercion is `v` (`NaN` for non-numeric
text). -/
structure DeliveryRow where
  id : String
  user_id : String
  date_iso : String
  car_make : Option String
  car_model : Option String
  reg : Option String
  pickup : Option String
  dropoff : Option String
  distance_km : Option JSNum
  rate_per_km : Option JSNum
  fixed_fee : Option JSNum
  transport_expense : Option JSNum
  earnings : Option JSNum
  status : Option Status
  notes : Option String
deriving DecidableEq

/-- `x || ''` on a nullable string: `null` becomes `""` (and `"" || ""` is
`""`, so an ordinary string is unchanged). -/
def orEmpty : Option String → String
  | none => ""
  | some s => s

/-- `Number(x ?? 0)` on a nullable numeric column. -/
def rowNum (o : Option JSNum) : JSNum := o.getD (some 0)

/-- `rowToDelivery`: maps a wire row to a `Delivery`, defaulting missing
numbers to `0`, missing strings to `""` and missing status to `pending`. -/
def rowToDelivery (r : DeliveryRow) : Delivery :=
  { id := r.id
    dateISO := r.date_iso
    carMake := orEmpty r.car_make
    carModel := orEmpty r.car_model
    reg := orEmpty r.reg
    pickup := orEmpty r.pickup
    dropoff := orEmpty r.dropoff
    distanceKm := rowNum r.distance_km
    ratePerKm := rowNum r.rate_per_km
    fixedFee := rowNum r.fixed_fee
    transportExpense := rowNum r.transport_expense
    earnings := rowNum r.earnings
    status := r.status.getD .pending
    notes := some (orEmpty r.notes) }

/-- The earnings computation at the top of `upsertDelivery`:
`input.earnings && input.earnings > 0 ? input.earnings
 : (Number(input.distanceKm) || 0) * (Number(input.ratePerKm) || 0)
   + (Number(input.fixedFee) || 0)`. -/
def computeEarnings (distanceKm ratePerKm fixedFee earnings : JSNum) : ℚ :=
  if jsTruthy earnings && jsGtZero earnings then
    numOrZero earnings
  else
    numOrZero distanceKm * numOrZero ratePerKm + numOrZero fixedFee

/-- The order induced by the comparator
`(a, b) => (a.dateISO < b.dateISO ? 1 : a.dateISO > b.dateISO ? -1 : 0)`:
`a` may come before `b` exactly when the comparator is `≤ 0`, i.e. when
`b.dateISO ≤ a.dateISO` (dates descending, lexicographic on the ISO
strings, matching JavaScript string comparison on ASCII). -/
def dateDescOrder (a b : Delivery) : Prop := b.dateISO ≤ a.dateISO

instance : DecidableRel dateDescOrder := fun a b =>
  inferInstanceAs (Decidable (b.dateISO ≤ a.dateISO))

instance : IsTotal Delivery dateDescOrder :=
  ⟨fun a b => le_total b.dateISO a.dateISO⟩

instance : IsTrans Delivery dateDescOrder :=
  ⟨fun _ _ _ h₁ h₂ => le_trans h₂ h₁⟩

/-- `sortByDateDesc`: `[...list].sort(comparator)` — the stable sort of the
list under `dateDescOrder`. -/
def sortByDateDesc (list : List Delivery) : List Delivery :=
  List.insertionSort dateDescOrder list

/-- The merge rule shared by all `upsertDelivery` paths: prepend the
new/updated record, drop any existing record with the same identifier, sort
descending by date. -/
def mergeRecord (x : Delivery) (l : List Delivery) : List Delivery :=
  sortByDateDesc (x :: l.filter (fun d => d.id != x.id))

/-- The component state touched by the reconciliation layer: the in-memory
record set (`deliveries` React state) and the cached blob
(`AsyncStorage` under `STORAGE_KEY`, as the list it deserialises to). -/
structure AppState where
  deliveries : List Delivery
  cache : List Delivery
deriving DecidableEq

/-- `syncFromRemote(alertOnError)`: no-op when signed out; otherwise replace
the in-memory set by the sorted remote set and overwrite the cache; on fetch
failure keep the previous state (the alert is presentation-only). The
`fetch` argument is the outcome of `fetchDeliveries(session.user.id)` before
the `rowToDelivery` mapping. -/
def syncFromRemote (_alertOnError : Bool) (session : Option String)
    (fetch : Except String (List DeliveryRow)) (s : AppState) : AppState :=
  match session with
  | none => s
  | some _uid =>
    match fetch with
    | .ok rows =>
      let next := sortByDateDesc (rows.map rowToDelivery)
      { deliveries := next, cache := next }
    | .error _e => s

/-- `{ ...(input as Delivery), id, earnings: computed }`: the optimistic local
record built from a draft. -/
def draftToDelivery (input : Draft) (id : String) (computed : ℚ) : Delivery :=
  { id := id
    dateISO := input.dateISO
    carMake := input.carMake
    carModel := input.carModel
    reg := input.reg
    pickup := input.pickup
    dropoff := input.dropoff
    distanceKm := input.distanceKm
    ratePerKm := input.ratePerKm
    fixedFee := input.fixedFee
    transportExpense := input.transportExpense
    earnings := some computed
    status := input.status
    notes := input.notes }

/-- `upsertDelivery(input)`.  `session` is the authenticated user id if any,
`remote` the outcome of the Supabase `upsert(...).select().single()` call
(only consulted when signed in), `freshId` the value `uuidv4()` would
produce.  Returns the new state and the returned identifier. -/
def upsertDelivery (input : Draft) (session : Option String)
    (remote : Except String DeliveryRow) (freshId : String)
    (s : AppState) : AppState × String :=
  let computed :=
    computeEarnings input.distanceKm input.ratePerKm input.fixedFee input.earnings
  match session with
  | some _uid =>
    let id := input.id.getD freshId
    match remote with
    | .ok row =>
      let saved := rowToDelivery row
      let next := sortByDateDesc (saved :: s.deliveries.filter (fun d => d.id != saved.id))
      ({ deliveries := next, cache := next }, saved.id)
    | .error _e =>
      -- Optimistic local fallback: `const localId = input.id ?? id`
      let localId := input.id.getD id
      let localRec := draftToDelivery input localId computed
      let next := sortByDateDesc (localRec :: s.deliveries.filter (fun d => d.id != localId))
      ({ deliveries := next, cache := next }, localId)
  | none =>
    let id := input.id.getD freshId
    let localRec := draftToDelivery input id computed
    let next := sortByDateDesc (localRec :: s.deliveries.filter (fun d => d.id != id))
    ({ deliveries := next, cache := next }, id)

/-- `deleteDelivery(id)`: when signed in a remote delete is attempted first,
but its failure only raises an alert; the local removal and cache rewrite
happen regardless of `session` and of the remote outcome. -/
def deleteDelivery (id : String) (_session : Option String)
    (_remote : Except String Unit) (s : AppState) : AppState :=
  let next := s.deliveries.filter (fun d => d.id != id)
  { deliveries := next, cache := next }

/-- What `AsyncStorage.getItem(STORAGE_KEY)` followed by `JSON.parse` can
yield in `loadCache`: no stored value (or an empty, falsy string), text on
which `JSON.parse` throws, a parsed value that is not an array, or a parsed
array of records. -/
inductive CacheRead where
  | absent
  | parseError (raw : String)
  | parsedNonArray
  | parsedArray (l : List Delivery)

/-- `loadCache()`: returns the parsed array when there is one and `[]` in
every other case; it is a total function (never raises). -/
def loadCache : CacheRead → List Delivery
  | .absent => []
  | .parseError _ => []
  | .parsedNonArray => []
  | .parsedArray l => l

/-- The device clock as the date filter sees it.  `new Date().toISOString()`
renders the current instant in UTC, so `iso(new Date())` is the UTC calendar
day (`utcTodayISO`); the calendar day in the device's local time zone
(`localTodayISO`) can differ from it near midnight for any non-UTC offset. -/
structure DeviceClock where
  utcTodayISO : String
  localTodayISO : String
deriving DecidableEq

/-- `iso(new Date())` as used by the `'today'` branch of `filtered()`:
`toISOString().slice(0, 10)`, i.e. the UTC calendar day. -/
def isoNow (c : DeviceClock) : String := c.utcTodayISO

/-- The `'today'` branch of `filtered()`:
`list.filter((d) => d.dateISO === todayISO)` with `todayISO = iso(new Date())`. -/
def filterToday (c : DeviceClock) (list : List Delivery) : List Delivery :=
  list.filter (fun d => d.dateISO == isoNow c)

/-- Modelled from the spec's words (for comparison with `filterToday`): the
filter that matches "the current calendar day computed from the device's
local clock". -/
def filterTodayLocalSpec (c : DeviceClock) (list : List Delivery) : List Delivery :=
  list.filter (fun d => d.dateISO == c.localTodayISO)

end Redoo

namespace Redoo

/-! ## Shared helper lemmas -/

/-- Sorting is a permutation, so membership is preserved. -/
theorem mem_sortByDateDesc {d : Delivery} {l : List Delivery} :
    d ∈ sortByDateDesc l ↔ d ∈ l :=
  (List.perm_insertionSort dateDescOrder l).mem_iff

/-- The sorted list is indeed sorted descending by date. -/
theorem sorted_sortByDateDesc (l : List Delivery) :
    List.Sorted dateDescOrder (sortByDateDesc l) :=
  List.sorted_insertionSort dateDescOrder l

/-- Stability at the front: an element whose date is maximal among the tail
stays in front of the stable sort (ties included, since later elements tie
behind earlier ones). -/
theorem sortByDateDesc_cons_of_max {x : Delivery} {l : List Delivery}
    (h : ∀ y ∈ l, y.dateISO ≤ x.dateISO) :
    sortByDateDesc (x :: l) = x :: sortByDateDesc l := by
  simp only [sortByDateDesc, List.insertionSort]
  cases hs : List.insertionSort dateDescOrder l with
  | nil => simp
  | cons y ys =>
    have hy : y ∈ l :=
      (List.perm_insertionSort dateDescOrder l).subset (hs.symm ▸ List.mem_cons_self y ys)
    exact List.orderedInsert_of_le dateDescOrder ys (h y hy)

/-- The head of the merged list is the merged-in record whenever its date is
maximal in the result. -/
theorem sortMerge_head {entry : Delivery} {l : List Delivery}
    (hmax : ∀ d ∈ sortByDateDesc (entry :: l), d.dateISO ≤ entry.dateISO) :
    (sortByDateDesc (entry :: l)).head? = some entry := by
  have h : ∀ y ∈ l, y.dateISO ≤ entry.dateISO := fun y hy =>
    hmax y (mem_sortByDateDesc.mpr (List.mem_cons_of_mem _ hy))
  rw [sortByDateDesc_cons_of_max h]
  rfl

/-- Membership in the merge of `entry` into `l`. -/
theorem mem_merge_iff (entry : Delivery) (l : List Delivery) (d : Delivery) :
    d ∈ sortByDateDesc (entry :: l.filter (fun x => x.id != entry.id)) ↔
      d = entry ∨ (d ∈ l ∧ d.id ≠ entry.id) := by
  rw [mem_sortByDateDesc, List.mem_cons]
  simp [List.mem_filter, bne_iff_ne]

/-- A concrete record used by witnesses and counterexamples. -/
def sampleDelivery (id dateISO : String) : Delivery :=
  { id := id, dateISO := dateISO, carMake := "", carModel := "", reg := "",
    pickup := "", dropoff := "", distanceKm := some 0, ratePerKm := some 0,
    fixedFee := some 0, transportExpense := some 0, earnings := some 0,
    status := .pending, notes := none }

/-- A concrete identifier-less draft used by witnesses. -/
def sampleDraft : Draft :=
  { id := none, dateISO := "2025-08-10", carMake := "", carModel := "",
    reg := "", pickup := "", dropoff := "", distanceKm := some 0,
    ratePerKm := some 0, fixedFee := some 0, transportExpense := some 0,
    earnings := some 0, status := .pending, notes := none }

/-! ## Claims -/

/-- Claim C1: for every record list with pairwise-distinct identifiers and
every new record, the merge rule (prepend, filter out the shared identifier,
sort) yields a list with at most one record per identifier, sorted descending
by date, containing the new record. -/
theorem mergeRecord_unique_sorted_mem (x : Delivery) (l : List Delivery)
    (h : (l.map Delivery.id).Nodup) :
    ((mergeRecord x l).map Delivery.id).Nodup ∧
    List.Sorted dateDescOrder (mergeRecord x l) ∧
    x ∈ mergeRecord x l := by
  have hperm : List.Perm (mergeRecord x l) (x :: l.filter (fun d => d.id != x.id)) :=
    List.perm_insertionSort dateDescOrder _
  refine ⟨?_, sorted_sortByDateDesc _, hperm.mem_iff.mpr (List.mem_cons_self _ _)⟩
  rw [(hperm.map Delivery.id).nodup_iff]
  refine List.nodup_cons.mpr ⟨?_, ?_⟩
  · intro hmem
    obtain ⟨d, hd, hdid⟩ := List.mem_map.mp hmem
    have hne : (d.id != x.id) = true := (List.mem_filter.mp hd).2
    exact (bne_iff_ne.mp hne) hdid
  · exact h.sublist ((List.filter_sublist l).map Delivery.id)

theorem mergeRecord_unique_sorted_mem_witness :
    (([sampleDelivery "b" "2025-08-09"].map Delivery.id)).Nodup ∧
    (((mergeRecord (sampleDelivery "a" "2025-08-10")
          [sampleDelivery "b" "2025-08-09"]).map Delivery.id).Nodup ∧
      List.Sorted dateDescOrder
        (mergeRecord (sampleDelivery "a" "2025-08-10")
          [sampleDelivery "b" "2025-08-09"]) ∧
      sampleDelivery "a" "2025-08-10" ∈
        mergeRecord (sampleDelivery "a" "2025-08-10")
          [sampleDelivery "b" "2025-08-09"]) :=
  ⟨by decide, mergeRecord_unique_sorted_mem _ _ (by decide)⟩

/-- Claim C2: the earnings computation returns a positive manual override
unchanged, otherwise returns `distance * rate + fixedFee` with non-numeric
inputs coerced to zero; in particular the three tabulated values hold
(`"x"` coerces to `NaN`, modelled as `none`). -/
theorem computeEarnings_spec (d r f : JSNum) (q : ℚ) (hq : 0 < q)
    (e : JSNum) (he : (jsTruthy e && jsGtZero e) = false) :
    computeEarnings d r f (some q) = q ∧
    computeEarnings d r f e = numOrZero d * numOrZero r + numOrZero f ∧
    computeEarnings (some 10) (some (3 / 4)) (some 5) (some 0) = 25 / 2 ∧
    computeEarnings (some 10) (some (3 / 4)) (some 5) (some 20) = 20 ∧
    computeEarnings none (some (3 / 4)) (some 5) (some 0) = 5 := by
  have h1 : jsTruthy (some q) = true := by simp [jsTruthy, ne_of_gt hq]
  have h2 : jsGtZero (some q) = true := by simp [jsGtZero, hq]
  refine ⟨?_, ?_, ?_, ?_, ?_⟩
  · simp [computeEarnings, h1, h2, numOrZero]
  · simp [computeEarnings, he]
  · norm_num [computeEarnings, jsTruthy, jsGtZero, numOrZero]
  · norm_num [computeEarnings, jsTruthy, jsGtZero, numOrZero]
  · norm_num [computeEarnings, jsTruthy, jsGtZero, numOrZero]

theorem computeEarnings_spec_witness :
    (0 : ℚ) < 1 ∧ (jsTruthy none && jsGtZero none) = false ∧
    (computeEarnings none none none (some 1) = 1 ∧
      computeEarnings none none none none =
        numOrZero none * numOrZero none + numOrZero none ∧
      computeEarnings (some 10) (some (3 / 4)) (some 5) (some 0) = 25 / 2 ∧
      computeEarnings (some 10) (some (3 / 4)) (some 5) (some 20) = 20 ∧
      computeEarnings none (some (3 / 4)) (some 5) (some 0) = 5) :=
  ⟨by norm_num, rfl, computeEarnings_spec none none none 1 (by norm_num) none rfl⟩

end Redoo

namespace Redoo

/-- Claim C3: when the remote fetch of an authenticated `syncFromRemote(true)`
fails, the in-memory set and the cache both keep their pre-call values; on a
successful authenticated fetch the in-memory set becomes the sorted remote
set and the cache is overwritten to match. -/
theorem syncFromRemote_failure_keeps_success_replaces (session : Option String)
    (uid : String) (hauth : session = some uid) (s : AppState) (e : String)
    (rows : List DeliveryRow) :
    syncFromRemote true session (.error e) s = s ∧
    syncFromRemote true session (.ok rows) s =
      { deliveries := sortByDateDesc (rows.map rowToDelivery),
        cache := sortByDateDesc (rows.map rowToDelivery) } := by
  subst hauth
  exact ⟨rfl, rfl⟩

theorem syncFromRemote_failure_keeps_success_replaces_witness :
    some "u" = some "u" ∧
    (syncFromRemote true (some "u") (.error "network down")
        ⟨[sampleDelivery "a" "2025-08-10"], [sampleDelivery "a" "2025-08-10"]⟩ =
      ⟨[sampleDelivery "a" "2025-08-10"], [sampleDelivery "a" "2025-08-10"]⟩ ∧
    syncFromRemote true (some "u") (.ok [])
        ⟨[sampleDelivery "a" "2025-08-10"], [sampleDelivery "a" "2025-08-10"]⟩ =
      { deliveries := sortByDateDesc (([] : List DeliveryRow).map rowToDelivery),
        cache := sortByDateDesc (([] : List DeliveryRow).map rowToDelivery) }) :=
  ⟨rfl, syncFromRemote_failure_keeps_success_replaces (some "u") "u" rfl
    ⟨[sampleDelivery "a" "2025-08-10"], [sampleDelivery "a" "2025-08-10"]⟩
    "network down" []⟩

/-- Claim C4: when the authenticated remote write fails, `upsertDelivery`
still merges the draft — with its client-computed earnings, under the draft
identifier or the freshly assigned one — into the in-memory set, re-sorts,
persists the result to cache and returns that identifier; the record is in
the resulting set (never silently lost). -/
theorem upsert_remoteFailure_optimistic (input : Draft) (uid e freshId : String)
    (s : AppState) :
    ((upsertDelivery input (some uid) (.error e) freshId s).1).deliveries =
      sortByDateDesc
        (draftToDelivery input (input.id.getD freshId)
            (computeEarnings input.distanceKm input.ratePerKm input.fixedFee
              input.earnings) ::
          s.deliveries.filter (fun d => d.id != input.id.getD freshId)) ∧
    ((upsertDelivery input (some uid) (.error e) freshId s).1).cache =
      ((upsertDelivery input (some uid) (.error e) freshId s).1).deliveries ∧
    (upsertDelivery input (some uid) (.error e) freshId s).2 =
      input.id.getD freshId ∧
    draftToDelivery input (input.id.getD freshId)
        (computeEarnings input.distanceKm input.ratePerKm input.fixedFee
          input.earnings) ∈
      ((upsertDelivery input (some uid) (.error e) freshId s).1).deliveries ∧
    (draftToDelivery input (input.id.getD freshId)
        (computeEarnings input.distanceKm input.ratePerKm input.fixedFee
          input.earnings)).earnings =
      some (computeEarnings input.distanceKm input.ratePerKm input.fixedFee
        input.earnings) := by
  have hgetD : input.id.getD (input.id.getD freshId) = input.id.getD freshId := by
    cases input.id <;> rfl
  refine ⟨?_, ?_, ?_, ?_, rfl⟩
  · simp [upsertDelivery, hgetD]
  · simp [upsertDelivery]
  · simp [upsertDelivery, hgetD]
  · have : ((upsertDelivery input (some uid) (.error e) freshId s).1).deliveries =
        sortByDateDesc
          (draftToDelivery input (input.id.getD freshId)
              (computeEarnings input.distanceKm input.ratePerKm input.fixedFee
                input.earnings) ::
            s.deliveries.filter (fun d => d.id != input.id.getD freshId)) := by
      simp [upsertDelivery, hgetD]
    rw [this, mem_sortByDateDesc]
    exact List.mem_cons_self _ _

/-- Claim C5: `deleteDelivery(id)` always removes every record with that
identifier from the in-memory set and persists that set to cache, whatever
the session state and the remote outcome. -/
theorem deleteDelivery_removes (id : String) (session : Option String)
    (remote : Except String Unit) (s : AppState)
    (_h : ∃ d ∈ s.deliveries, d.id = id) :
    (∀ d ∈ (deleteDelivery id session remote s).deliveries, d.id ≠ id) ∧
    (deleteDelivery id session remote s).cache =
      (deleteDelivery id session remote s).deliveries := by
  refine ⟨?_, rfl⟩
  intro d hd
  exact bne_iff_ne.mp (List.mem_filter.mp hd).2

theorem deleteDelivery_removes_witness :
    (∃ d ∈ [sampleDelivery "a" "2025-08-10"], d.id = "a") ∧
    ((∀ d ∈ (deleteDelivery "a" none (.ok ())
          ⟨[sampleDelivery "a" "2025-08-10"], []⟩).deliveries, d.id ≠ "a") ∧
      (deleteDelivery "a" none (.ok ())
          ⟨[sampleDelivery "a" "2025-08-10"], []⟩).cache =
        (deleteDelivery "a" none (.ok ())
          ⟨[sampleDelivery "a" "2025-08-10"], []⟩).deliveries) :=
  ⟨⟨sampleDelivery "a" "2025-08-10", List.mem_cons_self _ _, rfl⟩,
    deleteDelivery_removes "a" none (.ok ()) ⟨[sampleDelivery "a" "2025-08-10"], []⟩
      ⟨sampleDelivery "a" "2025-08-10", List.mem_cons_self _ _, rfl⟩⟩

/-- Claim C6: `loadCache()` returns the empty list whenever the stored value
is absent or the stored text is not parseable as JSON; being a total Lean
function, it never raises. -/
theorem loadCache_empty_on_absent_or_unparsable (st : CacheRead)
    (h : st = .absent ∨ ∃ raw, st = .parseError raw) :
    loadCache st = [] := by
  rcases h with h | ⟨raw, h⟩ <;> subst h <;> rfl

theorem loadCache_empty_on_absent_or_unparsable_witness :
    (CacheRead.absent = CacheRead.absent ∨
      ∃ raw, CacheRead.absent = CacheRead.parseError raw) ∧
    loadCache CacheRead.absent = [] :=
  ⟨Or.inl rfl, loadCache_empty_on_absent_or_unparsable CacheRead.absent (Or.inl rfl)⟩

end Redoo

namespace Redoo

/-- A JavaScript number that is not a negative number (it may be `NaN`). -/
def jsNonneg (v : JSNum) : Prop := ∀ q, v = some q → 0 ≤ q

/-- Counterexample to claim C7: the code does not keep `earnings`
non-negative.  A wire row whose `earnings` column holds `-3` is mapped by
`rowToDelivery` to a record with earnings `-3`, and the upsert computation on
a draft with distance `-5`, rate `1`, fixed fee `0` and no override produces
earnings `-5`. -/
theorem earnings_negative_counterexample :
    (rowToDelivery
        { id := "r1", user_id := "u1", date_iso := "2025-08-10",
          car_make := none, car_model := none, reg := none, pickup := none,
          dropoff := none, distance_km := none, rate_per_km := none,
          fixed_fee := none, transport_expense := none,
          earnings := some (some (-3)), status := none,
          notes := none }).earnings = some (-3) ∧
    ((-3 : ℚ) < 0) ∧
    computeEarnings (some (-5)) (some 1) (some 0) (some 0) = -5 ∧
    ((-5 : ℚ) < 0) := by
  refine ⟨rfl, by norm_num, ?_, by norm_num⟩
  norm_num [computeEarnings, jsTruthy, jsGtZero, numOrZero]

/-- Amended claim C7: whenever the numeric inputs of an operation are not
negative numbers, the record it produces has non-negative earnings — the
upsert computation under non-negative distance, rate and fixed fee (for any
override), and `rowToDelivery` for a row whose earnings column is not a
negative number; moreover earnings absent (`NaN`) or zero at submission time
is derived as `distance * rate + fixedFee`. -/
theorem earnings_nonneg_amended (d r f e : JSNum) (row : DeliveryRow)
    (hd : jsNonneg d) (hr : jsNonneg r) (hf : jsNonneg f)
    (hrow : jsNonneg (rowNum row.earnings)) :
    0 ≤ computeEarnings d r f e ∧
    jsNonneg (rowToDelivery row).earnings ∧
    computeEarnings d r f none = numOrZero d * numOrZero r + numOrZero f ∧
    computeEarnings d r f (some 0) = numOrZero d * numOrZero r + numOrZero f := by
  have hdz : 0 ≤ numOrZero d := by
    cases hv : d with
    | none => simp [numOrZero]
    | some q => simpa [numOrZero] using hd q hv
  have hrz : 0 ≤ numOrZero r := by
    cases hv : r with
    | none => simp [numOrZero]
    | some q => simpa [numOrZero] using hr q hv
  have hfz : 0 ≤ numOrZero f := by
    cases hv : f with
    | none => simp [numOrZero]
    | some q => simpa [numOrZero] using hf q hv
  have hsum : 0 ≤ numOrZero d * numOrZero r + numOrZero f :=
    add_nonneg (mul_nonneg hdz hrz) hfz
  refine ⟨?_, hrow, rfl, ?_⟩
  · rw [computeEarnings]
    by_cases hc : (jsTruthy e && jsGtZero e) = true
    · rw [if_pos hc]
      have hgt : jsGtZero e = true := (Bool.and_eq_true _ _ |>.mp hc).2
      cases hv : e with
      | none => rw [hv] at hgt; exact absurd hgt (by simp [jsGtZero])
      | some q =>
        rw [hv] at hgt
        have : 0 < q := by simpa [jsGtZero] using hgt
        simpa [numOrZero] using this.le
    · rw [if_neg hc]
      exact hsum
  · have hz : (jsTruthy (some (0 : ℚ)) && jsGtZero (some (0 : ℚ))) = false := by
      simp [jsTruthy]
    rw [computeEarnings, if_neg (by simp [hz])]

theorem earnings_nonneg_amended_witness :
    jsNonneg none ∧
    jsNonneg (rowNum (DeliveryRow.earnings
      { id := "r2", user_id := "u2", date_iso := "2025-08-10",
        car_make := none, car_model := none, reg := none, pickup := none,
        dropoff := none, distance_km := none, rate_per_km := none,
        fixed_fee := none, transport_expense := none, earnings := none,
        status := none, notes := none })) ∧
    (0 ≤ computeEarnings none none none none ∧
      jsNonneg (rowToDelivery
        { id := "r2", user_id := "u2", date_iso := "2025-08-10",
          car_make := none, car_model := none, reg := none, pickup := none,
          dropoff := none, distance_km := none, rate_per_km := none,
          fixed_fee := none, transport_expense := none, earnings := none,
          status := none, notes := none }).earnings ∧
      computeEarnings none none none none =
        numOrZero none * numOrZero none + numOrZero none ∧
      computeEarnings none none none (some 0) =
        numOrZero none * numOrZero none + numOrZero none) :=
  ⟨fun q hq => Option.noConfusion hq,
    fun q hq => by cases hq; exact le_rfl,
    earnings_nonneg_amended none none none none _
      (fun q hq => Option.noConfusion hq) (fun q hq => Option.noConfusion hq)
      (fun q hq => Option.noConfusion hq) (fun q hq => by cases hq; exact le_rfl)⟩

/-- Counterexample to claim C8: `iso(new Date())` is
`toISOString().slice(0, 10)`, the UTC calendar day, not the local calendar
day.  With a clock whose UTC day is 2025-08-10 while the local day is already
2025-08-11, a record dated on the local day is NOT returned by the filter,
although the claim says it would be. -/
theorem filterToday_local_counterexample :
    (sampleDelivery "a" "2025-08-11").dateISO =
      (DeviceClock.mk "2025-08-10" "2025-08-11").localTodayISO ∧
    filterToday (DeviceClock.mk "2025-08-10" "2025-08-11")
      [sampleDelivery "a" "2025-08-11"] = [] ∧
    filterTodayLocalSpec (DeviceClock.mk "2025-08-10" "2025-08-11")
      [sampleDelivery "a" "2025-08-11"] = [sampleDelivery "a" "2025-08-11"] := by
  refine ⟨rfl, ?_, ?_⟩ <;> simp [filterToday, filterTodayLocalSpec, isoNow, sampleDelivery]

/-- Amended claim C8: a record is returned by the `'today'` date filter if
and only if it is in the list and its date string equals the current calendar
day rendered in UTC (`toISOString`), which is what `iso(new Date())`
computes; the local calendar day can differ from it. -/
theorem filterToday_mem_iff (c : DeviceClock) (l : List Delivery) (d : Delivery) :
    d ∈ filterToday c l ↔ d ∈ l ∧ d.dateISO = c.utcTodayISO := by
  simp [filterToday, isoNow, List.mem_filter]

end Redoo

namespace Redoo

/-- Claim C9: on a draft with no identifier, `upsertDelivery` uses a fresh
identifier (modelled by `freshId`, assumed — as of `uuidv4()` — to not occur
in the prior set; on the remote-success path the canonical row is assumed to
echo the upserted identifier), returns it, and the upserted record heads the
resulting list whenever its date is the maximum date in the resulting set,
ties included (stability of the sort). -/
theorem upsert_assignsFreshId (input : Draft) (session : Option String)
    (remote : Except String DeliveryRow) (freshId : String) (s : AppState)
    (hid : input.id = none)
    (hfresh : ∀ d ∈ s.deliveries, d.id ≠ freshId)
    (hpath : session = none ∨ (∃ e, remote = .error e) ∨
      (∃ row, remote = .ok row ∧ row.id = freshId)) :
    ∃ entry : Delivery, entry.id = freshId ∧
      (upsertDelivery input session remote freshId s).2 = freshId ∧
      (∀ d ∈ s.deliveries, d.id ≠ freshId) ∧
      (upsertDelivery input session remote freshId s).1.deliveries =
        sortByDateDesc (entry :: s.deliveries.filter (fun d => d.id != freshId)) ∧
      ((∀ d ∈ (upsertDelivery input session remote freshId s).1.deliveries,
          d.dateISO ≤ entry.dateISO) →
        ((upsertDelivery input session remote freshId s).1.deliveries).head? =
          some entry) := by
  cases session with
  | none =>
    have hres : (upsertDelivery input none remote freshId s).1.deliveries =
        sortByDateDesc
          (draftToDelivery input freshId
              (computeEarnings input.distanceKm input.ratePerKm input.fixedFee
                input.earnings) ::
            s.deliveries.filter (fun d => d.id != freshId)) := by
      simp [upsertDelivery, hid]
    refine ⟨draftToDelivery input freshId
        (computeEarnings input.distanceKm input.ratePerKm input.fixedFee
          input.earnings), rfl, ?_, hfresh, hres, ?_⟩
    · simp [upsertDelivery, hid]
    · intro hmax
      rw [hres] at hmax ⊢
      exact sortMerge_head hmax
  | some uid =>
    rcases hpath with hses | ⟨e, hrem⟩ | ⟨row, hrem, hrid⟩
    · exact Option.noConfusion hses
    · subst hrem
      have hres : (upsertDelivery input (some uid) (.error e) freshId s).1.deliveries =
          sortByDateDesc
            (draftToDelivery input freshId
                (computeEarnings input.distanceKm input.ratePerKm input.fixedFee
                  input.earnings) ::
              s.deliveries.filter (fun d => d.id != freshId)) := by
        simp [upsertDelivery, hid]
      refine ⟨draftToDelivery input freshId
          (computeEarnings input.distanceKm input.ratePerKm input.fixedFee
            input.earnings), rfl, ?_, hfresh, hres, ?_⟩
      · simp [upsertDelivery, hid]
      · intro hmax
        rw [hres] at hmax ⊢
        exact sortMerge_head hmax
    · subst hrem
      have hres : (upsertDelivery input (some uid) (.ok row) freshId s).1.deliveries =
          sortByDateDesc
            (rowToDelivery row ::
              s.deliveries.filter (fun d => d.id != freshId)) := by
        simp [upsertDelivery, rowToDelivery, hrid]
      refine ⟨rowToDelivery row, hrid, ?_, hfresh, hres, ?_⟩
      · simpa [upsertDelivery, rowToDelivery] using hrid
      · intro hmax
        rw [hres] at hmax ⊢
        exact sortMerge_head hmax

theorem upsert_assignsFreshId_witness :
    ∃ entry : Delivery, entry.id = "fresh" ∧
      (upsertDelivery sampleDraft none (.error "boom") "fresh"
        (AppState.mk [] [])).2 = "fresh" ∧
      (∀ d ∈ (AppState.mk [] []).deliveries, d.id ≠ "fresh") ∧
      (upsertDelivery sampleDraft none (.error "boom") "fresh"
          (AppState.mk [] [])).1.deliveries =
        sortByDateDesc
          (entry ::
            (AppState.mk [] []).deliveries.filter (fun d => d.id != "fresh")) ∧
      ((∀ d ∈ (upsertDelivery sampleDraft none (.error "boom") "fresh"
            (AppState.mk [] [])).1.deliveries, d.dateISO ≤ entry.dateISO) →
        ((upsertDelivery sampleDraft none (.error "boom") "fresh"
          (AppState.mk [] [])).1.deliveries).head? = some entry) :=
  upsert_assignsFreshId sampleDraft none (.error "boom") "fresh"
    (AppState.mk [] []) rfl (fun d hd => absurd hd (List.not_mem_nil d))
    (Or.inl rfl)

/-- Claim C10: on every path of `upsertDelivery` there is an upserted record
such that the returned identifier is its identifier, every prior record with
a different identifier appears unchanged in the result, and the result holds
nothing besides those records and the upserted one. -/
theorem upsert_frame (input : Draft) (session : Option String)
    (remote : Except String DeliveryRow) (freshId : String) (s : AppState) :
    ∃ entry : Delivery,
      (upsertDelivery input session remote freshId s).2 = entry.id ∧
      (∀ d ∈ s.deliveries, d.id ≠ entry.id →
        d ∈ (upsertDelivery input session remote freshId s).1.deliveries) ∧
      (∀ d ∈ (upsertDelivery input session remote freshId s).1.deliveries,
        d = entry ∨ (d ∈ s.deliveries ∧ d.id ≠ entry.id)) := by
  cases session with
  | none =>
    refine ⟨draftToDelivery input (input.id.getD freshId)
        (computeEarnings input.distanceKm input.ratePerKm input.fixedFee
          input.earnings), rfl, ?_, ?_⟩
    · intro d hd hne
      exact (mem_merge_iff _ s.deliveries d).mpr (Or.inr ⟨hd, hne⟩)
    · intro d hd
      exact (mem_merge_iff _ s.deliveries d).mp hd
  | some uid =>
    cases remote with
    | ok row =>
      refine ⟨rowToDelivery row, rfl, ?_, ?_⟩
      · intro d hd hne
        exact (mem_merge_iff _ s.deliveries d).mpr (Or.inr ⟨hd, hne⟩)
      · intro d hd
        exact (mem_merge_iff _ s.deliveries d).mp hd
    | error e =>
      have hgetD : input.id.getD (input.id.getD freshId) = input.id.getD freshId := by
        cases input.id <;> rfl
      refine ⟨draftToDelivery input (input.id.getD freshId)
          (computeEarnings input.distanceKm input.ratePerKm input.fixedFee
            input.earnings), ?_, ?_, ?_⟩
      · simp [upsertDelivery, draftToDelivery, hgetD]
      · intro d hd hne
        have hm := (mem_merge_iff (draftToDelivery input (input.id.getD freshId)
            (computeEarnings input.distanceKm input.ratePerKm input.fixedFee
              input.earnings)) s.deliveries d).mpr (Or.inr ⟨hd, hne⟩)
        have hres : (upsertDelivery input (some uid) (.error e) freshId s).1.deliveries =
            sortByDateDesc
              (draftToDelivery input (input.id.getD freshId)
                  (computeEarnings input.distanceKm input.ratePerKm input.fixedFee
                    input.earnings) ::
                s.deliveries.filter (fun d => d.id !=
                  (draftToDelivery input (input.id.getD freshId)
                    (computeEarnings input.distanceKm input.ratePerKm
                      input.fixedFee input.earnings)).id)) := by
          simp [upsertDelivery, draftToDelivery, hgetD]
        rw [hres]
        exact hm
      · intro d hd
        have hres : (upsertDelivery input (some uid) (.error e) freshId s).1.deliveries =
            sortByDateDesc
              (draftToDelivery input (input.id.getD freshId)
                  (computeEarnings input.distanceKm input.ratePerKm input.fixedFee
                    input.earnings) ::
                s.deliveries.filter (fun d => d.id !=
                  (draftToDelivery input (input.id.getD freshId)
                    (computeEarnings input.distanceKm input.ratePerKm
                      input.fixedFee input.earnings)).id)) := by
          simp [upsertDelivery, draftToDelivery, hgetD]
        rw [hres] at hd
        exact (mem_merge_iff _ s.deliveries d).mp hd

end Redoo
